import Mathlib

/-!
Shallow embedding of the event-management hub in `src/event.js`
(event registration, cancellation, moderation and view projection).

The Firestore document store is modelled as explicit association lists:
events keyed by an opaque numeric document id assigned at creation
(`addDoc` generates a fresh key; we model key generation with a counter),
registration records keyed by `(userId, eventId)` (the code stores them at
path `users/userId/registrations/eventId`), and profiles keyed by user id.
Each handler is a pure function from a store to a result, a new store, and
the ordered list of document writes it performed.
-/

namespace EventHub

/-- Lifecycle status of an event (`status` field, `src/event.js` line 389,
523, 537). -/
inductive Status where
  | pending
  | approved
  | rejected
deriving DecidableEq

/-- An `Event` document as stored in the events collection
(`src/event.js` lines 385-391). -/
structure Event where
  title : String
  description : String
  date : String
  time : String
  location : String
  capacity : Nat
  attendees : List String
  status : Status
  creatorId : String
  creatorEmail : String
deriving DecidableEq

/-- The form data produced by `EventModal.handleSubmit`
(`src/event.js` line 207): exactly the six editable fields. -/
structure EventData where
  title : String
  description : String
  date : String
  time : String
  location : String
  capacity : Nat
deriving DecidableEq

/-- A user profile document (`src/event.js` line 42). -/
structure Profile where
  email : String
  isAdmin : Bool
deriving DecidableEq

/-- The per-client session state held by `FirebaseProvider`
(`src/event.js` lines 31-51): the authenticated user id, email, and the
`isAdmin` flag cached in React state at auth-state change. -/
structure Session where
  userId : String
  email : String
  isAdmin : Bool
deriving DecidableEq

/-- The committed document-store state: the shared events collection, the
per-user registration records (keyed by user id and event id), the profile
records, and the counter modelling fresh key assignment by `addDoc`. -/
structure Store where
  events : List (Nat × Event)
  registrations : List ((String × Nat) × String)
  profiles : List (String × Profile)
  nextId : Nat
deriving DecidableEq

/-- The empty store: no documents committed yet. -/
def emptyStore : Store := { events := [], registrations := [], profiles := [], nextId := 0 }

/-- Typed result of an engine operation, from the branches of the handlers
in `src/event.js` (each branch shows a distinct user-visible message). -/
inductive EngineResult where
  | ok
  | notFound
  | alreadyRegistered
  | eventFull
  | notRegistered
  | unauthorized
deriving DecidableEq

/-- A single document write performed against the store, recorded in the
order the handler issues it. -/
inductive Write where
  | updateAttendees (eventId : Nat) (newAttendees : List String)
  | setRegistrationRecord (userId : String) (eventId : Nat) (registeredAt : String)
  | deleteRegistrationRecord (userId : String) (eventId : Nat)
deriving DecidableEq

section AssocList

variable {α β : Type} [DecidableEq α]

/-- Look up the first entry with the given key (document read by key). -/
def alookup : List (α × β) → α → Option β
  | [], _ => none
  | p :: t, k => if p.1 = k then some p.2 else alookup t k

/-- Apply `f` to every entry with the given key (models `updateDoc` on an
existing document). -/
def aupdate (l : List (α × β)) (k : α) (f : β → β) : List (α × β) :=
  l.map (fun p => if p.1 = k then (p.1, f p.2) else p)

/-- Remove every entry with the given key (models `deleteDoc`). -/
def adelete (l : List (α × β)) (k : α) : List (α × β) :=
  l.filter (fun p => decide (p.1 ≠ k))

/-- Create-or-replace the entry with the given key (models `setDoc`). -/
def aset (l : List (α × β)) (k : α) (v : β) : List (α × β) :=
  adelete l k ++ [(k, v)]

end AssocList

/-- The event document created by `handleSaveEvent` when no event is being
edited (`src/event.js` lines 385-391): the six form fields plus
`creatorId`, `creatorEmail`, `status: pending`, `attendees: []`. -/
def mkNewEvent (sess : Session) (d : EventData) : Event :=
  { title := d.title
    description := d.description
    date := d.date
    time := d.time
    location := d.location
    capacity := d.capacity
    creatorId := sess.userId
    creatorEmail := sess.email
    status := Status.pending
    attendees := [] }

/-- Merge of the six form fields into an existing event document, as
performed by `updateDoc(eventRef, eventData)` in `handleSaveEvent`
(`src/event.js` line 381) with `eventData` from `EventModal.handleSubmit`
(`src/event.js` line 207). -/
def applyEdit (d : EventData) (ev : Event) : Event :=
  { ev with
      title := d.title
      description := d.description
      date := d.date
      time := d.time
      location := d.location
      capacity := d.capacity }

/-- `handleSaveEvent` (`src/event.js` lines 372-400). With `eventToEdit`
set it merges the six form fields into the existing document (`updateDoc`
fails when the document is absent, caught and reported by the handler);
otherwise it creates a fresh document with status `pending` and empty
attendees. The authenticated-session guard of line 373 is modelled by
taking the resolved session as an argument (spec section 6 treats
authentication as already resolved). -/
def handleSaveEvent (sess : Session) (eventToEdit : Option Nat) (d : EventData)
    (s : Store) : EngineResult × Store :=
  match eventToEdit with
  | some id =>
    match alookup s.events id with
    | some _ => (EngineResult.ok, { s with events := aupdate s.events id (applyEdit d) })
    | none => (EngineResult.notFound, s)
  | none =>
    (EngineResult.ok,
      { s with
          events := s.events ++ [(s.nextId, mkNewEvent sess d)]
          nextId := s.nextId + 1 })

/-- `handleRegister` (`src/event.js` lines 421-464): read the event
(`NotFound` if absent), fail if the caller is already in `attendees`
(line 439), fail if `attendees.length >= capacity` (line 443), otherwise
update the event with the appended attendee list (line 449) and then
create the registration record at `users/userId/registrations/eventId`
(line 454). The returned list records the writes in the order issued. -/
def handleRegister (u : String) (e : Nat) (now : String) (s : Store) :
    EngineResult × Store × List Write :=
  match alookup s.events e with
  | none => (EngineResult.notFound, s, [])
  | some ev =>
    let cur := ev.attendees
    if u ∈ cur then (EngineResult.alreadyRegistered, s, [])
    else if cur.length ≥ ev.capacity then (EngineResult.eventFull, s, [])
    else
      let newAtt := cur ++ [u]
      let s1 : Store := { s with events := aupdate s.events e (fun ev0 => { ev0 with attendees := newAtt }) }
      let s2 : Store := { s1 with registrations := aset s1.registrations (u, e) now }
      (EngineResult.ok, s2,
        [Write.updateAttendees e newAtt, Write.setRegistrationRecord u e now])

/-- `handleCancelRegistration` (`src/event.js` lines 467-513): read the
event (`NotFound` if absent), filter the caller out of `attendees`
(line 488); if the length is unchanged the caller was not registered
(line 490); otherwise update the event with the filtered list (line 496)
and then delete the registration record (line 501). -/
def handleCancelRegistration (u : String) (e : Nat) (s : Store) :
    EngineResult × Store × List Write :=
  match alookup s.events e with
  | none => (EngineResult.notFound, s, [])
  | some ev =>
    let cur := ev.attendees
    let updated := cur.filter (fun i => decide (i ≠ u))
    if updated.length = cur.length then (EngineResult.notRegistered, s, [])
    else
      let s1 : Store := { s with events := aupdate s.events e (fun ev0 => { ev0 with attendees := updated }) }
      let s2 : Store := { s1 with registrations := adelete s1.registrations (u, e) }
      (EngineResult.ok, s2,
        [Write.updateAttendees e updated, Write.deleteRegistrationRecord u e])

/-- `handleApproveEvent` (`src/event.js` lines 517-529): refuse if the
session's cached `isAdmin` flag is false, otherwise unconditionally write
`status: approved` to the event document (`updateDoc` on an absent
document fails, caught and reported). No check of the current status is
performed. -/
def handleApproveEvent (sess : Session) (e : Nat) (s : Store) : EngineResult × Store :=
  if sess.isAdmin then
    match alookup s.events e with
    | some _ => (EngineResult.ok, { s with events := aupdate s.events e (fun ev => { ev with status := Status.approved }) })
    | none => (EngineResult.notFound, s)
  else (EngineResult.unauthorized, s)

/-- `handleRejectEvent` (`src/event.js` lines 531-543): same shape as
`handleApproveEvent` but writes `status: rejected`. -/
def handleRejectEvent (sess : Session) (e : Nat) (s : Store) : EngineResult × Store :=
  if sess.isAdmin then
    match alookup s.events e with
    | some _ => (EngineResult.ok, { s with events := aupdate s.events e (fun ev => { ev with status := Status.rejected }) })
    | none => (EngineResult.notFound, s)
  else (EngineResult.unauthorized, s)

/-- `handleDeleteEvent` (`src/event.js` lines 403-418, confirmed branch):
delete the event document. No registration record is touched. -/
def handleDeleteEvent (e : Nat) (s : Store) : Store :=
  { s with events := adelete s.events e }

/-- The profile read of `FirebaseProvider.onAuthStateChanged`
(`src/event.js` lines 31-51): fetch the profile, cache its `isAdmin` flag
in session state; if the profile is absent, create it with
`isAdmin: false` and cache `false`. -/
def resolveSession (uid : String) (email : String) (s : Store) : Session × Store :=
  match alookup s.profiles uid with
  | some p => ({ userId := uid, email := email, isAdmin := p.isAdmin }, s)
  | none =>
    ({ userId := uid, email := email, isAdmin := false },
      { s with profiles := aset s.profiles uid { email := email, isAdmin := false } })

/-- One client-issued engine operation, for reasoning about sequentially
reachable store states. -/
inductive Op where
  | create (sess : Session) (d : EventData)
  | edit (sess : Session) (id : Nat) (d : EventData)
  | register (u : String) (id : Nat) (now : String)
  | cancel (u : String) (id : Nat)
  | approve (sess : Session) (id : Nat)
  | reject (sess : Session) (id : Nat)
  | delete (id : Nat)
deriving DecidableEq

/-- The store state after one operation commits (all writes succeed). -/
def step (s : Store) : Op → Store
  | Op.create sess d => (handleSaveEvent sess none d s).2
  | Op.edit sess id d => (handleSaveEvent sess (some id) d s).2
  | Op.register u id now => (handleRegister u id now s).2.1
  | Op.cancel u id => (handleCancelRegistration u id s).2.1
  | Op.approve sess id => (handleApproveEvent sess id s).2
  | Op.reject sess id => (handleRejectEvent sess id s).2
  | Op.delete id => handleDeleteEvent id s

/-- The store state after a sequence of operations executed sequentially
by a single client. -/
def exec (s : Store) : List Op → Store
  | [] => s
  | op :: rest => exec (step s op) rest

/-- Status of the event stored under a key, if any. -/
def statusOf (s : Store) (e : Nat) : Option Status :=
  (alookup s.events e).map Event.status

/-- Attendee list of the event stored under a key, if any. -/
def attendeesOf (s : Store) (e : Nat) : Option (List String) :=
  (alookup s.events e).map Event.attendees

/-- Whether the registration record for a user and event exists
(document `users/userId/registrations/eventId`). -/
def regRecordExists (s : Store) (u : String) (e : Nat) : Bool :=
  (alookup s.registrations (u, e)).isSome

/-! View Projector (`src/event.js` lines 546-566). -/

/-- Lower-cased character list of a string, modelling
`String.prototype.toLowerCase` on the identifier-and-ASCII text the
filters compare. -/
def lowerChars (s : String) : List Char :=
  s.data.map Char.toLower

/-- Whether `needle` is an initial segment of `hay` (helper for the
substring test of `String.prototype.includes`). -/
def listStartsWith : List Char → List Char → Bool
  | _, [] => true
  | [], _ :: _ => false
  | a :: as, b :: bs => a == b && listStartsWith as bs

/-- Whether `needle` occurs contiguously in `hay`, modelling
`hay.includes(needle)` (`src/event.js` line 548). -/
def listIncludes : List Char → List Char → Bool
  | [], needle => listStartsWith [] needle
  | h :: t, needle => listStartsWith (h :: t) needle || listIncludes t needle

/-- The four client-visible tabs (`src/event.js` line 553). -/
inductive Tab where
  | all
  | myEvents
  | myRegistrations
  | adminPending
deriving DecidableEq

/-- The secondary client-side filter predicate of `filteredEvents`
(`src/event.js` lines 546-550): date equality when a date filter is set
(the empty string is falsy in the source), and case-insensitive substring
match on location when a location filter is set. -/
def secondaryPred (filterDate filterLocation : String) (ev : Event) : Bool :=
  (if filterDate = "" then true else decide (ev.date = filterDate)) &&
    (if filterLocation = "" then true
     else listIncludes (lowerChars ev.location) (lowerChars filterLocation))

/-- The per-tab predicate of `displayedEvents` (`src/event.js` lines
555-566). -/
def tabPred (tab : Tab) (userId : String) (isAdm : Bool) (ev : Event) : Bool :=
  match tab with
  | Tab.all => decide (ev.status = Status.approved)
  | Tab.myEvents => decide (ev.creatorId = userId)
  | Tab.myRegistrations => decide (userId ∈ ev.attendees)
  | Tab.adminPending => isAdm && decide (ev.status = Status.pending)

/-- `filteredEvents` (`src/event.js` lines 546-550): the secondary filters
applied to the raw event list. -/
def filteredEventsOf (filterDate filterLocation : String) (events : List Event) : List Event :=
  events.filter (secondaryPred filterDate filterLocation)

/-- `displayedEvents` (`src/event.js` lines 555-566): the tab predicate
applied to the output of `filteredEvents`. -/
def displayedEvents (tab : Tab) (userId : String) (isAdm : Bool)
    (filterDate filterLocation : String) (events : List Event) : List Event :=
  (filteredEventsOf filterDate filterLocation events).filter (tabPred tab userId isAdm)

/-! Invariants and side conditions. -/

/-- Every committed event document satisfies the capacity bound. -/
def capOkL (l : List (Nat × Event)) : Prop :=
  ∀ k ev, alookup l k = some ev → ev.attendees.length ≤ ev.capacity

/-- Side condition on a single operation: an edit must not lower the
edited event's capacity below its current attendee count. Every other
operation is unconditionally safe. -/
def editSafeB (s : Store) : Op → Bool
  | Op.edit _ id d =>
    match alookup s.events id with
    | some ev => decide (ev.attendees.length ≤ d.capacity)
    | none => true
  | _ => true

/-- All edits along an operation sequence respect the current attendee
count of the event they edit. -/
def execSafeB : Store → List Op → Bool
  | _, [] => true
  | s, op :: rest => editSafeB s op && execSafeB (step s op) rest

/-- Relation between registration records and attendee lists maintained by
the handlers: every event key is below the fresh-key counter, every
registration record points below the counter, and a registration record
for a user and a still-existing event implies the user is in that event's
attendees. -/
def regInv (s : Store) : Prop :=
  (∀ p ∈ s.events, p.1 < s.nextId) ∧
    (∀ q ∈ s.registrations, q.1.2 < s.nextId) ∧
    (∀ k ev u, alookup s.events k = some ev →
      alookup s.registrations (u, k) ≠ none → u ∈ ev.attendees)

/-! Concrete fixtures used by counterexamples and witnesses. -/

/-- A non-admin creator session. -/
def sessCreator : Session := { userId := "creator", email := "creator@example.com", isAdmin := false }

/-- An admin session. -/
def sessAdmin : Session := { userId := "admin", email := "admin@example.com", isAdmin := true }

/-- Form data for an event with capacity 1. -/
def dataCap1 : EventData :=
  { title := "Launch", description := "Kickoff", date := "2026-01-01", time := "10:00"
    location := "Hall A", capacity := 1 }

/-- Form data for an event with capacity 2. -/
def dataCap2 : EventData := { dataCap1 with capacity := 2 }

/-- Create a capacity-2 event, fill it with two attendees, then edit its
capacity down to 1: the committed state violates the capacity bound. -/
def c1BadOps : List Op :=
  [Op.create sessCreator dataCap2, Op.register "A" 0 "t1", Op.register "B" 0 "t2",
    Op.edit sessCreator 0 dataCap1]

/-- The event document committed after `c1BadOps`: two attendees, capacity 1. -/
def c1BadEvent : Event :=
  { applyEdit dataCap1 (mkNewEvent sessCreator dataCap2) with attendees := ["A", "B"] }

/-- A sequence whose single edit keeps capacity at or above the attendee
count. -/
def c1GoodOps : List Op :=
  [Op.create sessCreator dataCap2, Op.register "A" 0 "t1", Op.edit sessCreator 0 dataCap2,
    Op.register "B" 0 "t2", Op.cancel "A" 0]

/-- The event document committed after `c1GoodOps`. -/
def c1GoodEvent : Event :=
  { applyEdit dataCap2 (mkNewEvent sessCreator dataCap2) with attendees := ["B"] }

/-- Create an event and have the admin reject it. -/
def c2Ops : List Op := [Op.create sessCreator dataCap1, Op.reject sessAdmin 0]

/-- A store holding one already-approved event under key 0. -/
def c2ApprovedStore : Store :=
  exec emptyStore [Op.create sessCreator dataCap1, Op.approve sessAdmin 0]

/-- The approved event document of `c2ApprovedStore`. -/
def c2ApprovedEvent : Event :=
  { mkNewEvent sessCreator dataCap1 with status := Status.approved }

/-- The event of `c2ApprovedStore` after one registration. -/
def c2AfterRegEvent : Event := { c2ApprovedEvent with attendees := ["A"] }

/-- A store in which user `u` has an admin profile. -/
def c3PreStore : Store :=
  { emptyStore with profiles := [("u", { email := "u@example.com", isAdmin := true })] }

/-- The session user `u` obtains by signing in against `c3PreStore`: the
`isAdmin` flag is cached from the profile read. -/
def c3Session : Session := (resolveSession "u" "u@example.com" c3PreStore).1

/-- The store after the profile of `u` is demoted out-of-band to
`isAdmin = false`, holding one pending event. -/
def c3Store : Store :=
  { events := [(0, mkNewEvent sessCreator dataCap1)]
    registrations := []
    profiles := [("u", { email := "u@example.com", isAdmin := false })]
    nextId := 1 }

/-- A store holding one approved, empty, capacity-1 event under key 0. -/
def c6Store0 : Store :=
  exec emptyStore [Op.create sessCreator dataCap1, Op.approve sessAdmin 0]

/-- `c6Store0` after identity A registers. -/
def c6Store1 : Store := (handleRegister "A" 0 "t1" c6Store0).2.1

/-- `c6Store1` after identity A cancels. -/
def c6Store2 : Store := (handleCancelRegistration "A" 0 c6Store1).2.1

/-- The full event document of `c6Store1`: approved, capacity 1, one
attendee A. -/
def c6FullEvent : Event :=
  { mkNewEvent sessCreator dataCap1 with status := Status.approved, attendees := ["A"] }

/-- Create an event and approve it: the reachable pre-state for the
register-cancel round trip. -/
def c8Ops : List Op := [Op.create sessCreator dataCap1, Op.approve sessAdmin 0]

/-- The writes issued by the successful registration in the round-trip
witness. -/
def c8Writes : List Write :=
  [Write.updateAttendees 0 ["A"], Write.setRegistrationRecord "A" 0 "t1"]

/-! Association-list lemmas used throughout. -/

section AssocLemmas

variable {α β : Type} [DecidableEq α]

theorem alookup_mem {l : List (α × β)} {k : α} {v : β} (h : alookup l k = some v) :
    (k, v) ∈ l := by
  induction l with
  | nil => simp [alookup] at h
  | cons p t ih =>
    by_cases hk : p.1 = k
    · simp [alookup, hk] at h
      subst hk h
      exact List.mem_cons_self _ _
    · simp [alookup, hk] at h
      exact List.mem_cons_of_mem _ (ih h)

theorem alookup_append_some {l l2 : List (α × β)} {k : α} {v : β}
    (h : alookup l k = some v) : alookup (l ++ l2) k = some v := by
  induction l with
  | nil => simp [alookup] at h
  | cons p t ih =>
    by_cases hk : p.1 = k
    · simp_all [alookup, hk]
    · simp_all [alookup, hk]

theorem alookup_append_none {l l2 : List (α × β)} {k : α}
    (h : alookup l k = none) : alookup (l ++ l2) k = alookup l2 k := by
  induction l with
  | nil => simp [alookup]
  | cons p t ih =>
    by_cases hk : p.1 = k
    · simp [alookup, hk] at h
    · simp_all [alookup, hk]

theorem alookup_aupdate_self (l : List (α × β)) (k : α) (f : β → β) :
    alookup (aupdate l k f) k = (alookup l k).map f := by
  induction l with
  | nil => simp [alookup, aupdate]
  | cons p t ih =>
    by_cases hk : p.1 = k
    · simp [alookup, aupdate, hk]
    · simpa [alookup, aupdate, hk] using ih

theorem alookup_aupdate_ne (l : List (α × β)) {k k' : α} (f : β → β) (h : k' ≠ k) :
    alookup (aupdate l k f) k' = alookup l k' := by
  induction l with
  | nil => simp [alookup, aupdate]
  | cons p t ih =>
    by_cases hk : p.1 = k
    · simpa [alookup, aupdate, hk, Ne.symm h] using ih
    · by_cases hk' : p.1 = k'
      · simp [alookup, aupdate, hk, hk', h]
      · simpa [alookup, aupdate, hk, hk'] using ih

theorem aupdate_eq_self {l : List (α × β)} {k : α} {f : β → β}
    (h : ∀ v, (k, v) ∈ l → f v = v) : aupdate l k f = l := by
  induction l with
  | nil => rfl
  | cons p t ih =>
    have ht : aupdate t k f = t := ih fun v hv => h v (List.mem_cons_of_mem _ hv)
    by_cases hk : p.1 = k
    · have hp : f p.2 = p.2 := by
        apply h
        rw [← hk]
        exact List.mem_cons_self _ _
      show (if p.1 = k then (p.1, f p.2) else p) :: aupdate t k f = p :: t
      rw [if_pos hk, hp, ht]
    · show (if p.1 = k then (p.1, f p.2) else p) :: aupdate t k f = p :: t
      rw [if_neg hk, ht]

theorem alookup_adelete_self (l : List (α × β)) (k : α) :
    alookup (adelete l k) k = none := by
  induction l with
  | nil => simp [alookup, adelete]
  | cons p t ih =>
    by_cases hk : p.1 = k
    · simpa [adelete, hk] using ih
    · simpa [alookup, adelete, hk] using ih

theorem alookup_adelete_ne (l : List (α × β)) {k k' : α} (h : k' ≠ k) :
    alookup (adelete l k) k' = alookup l k' := by
  induction l with
  | nil => simp [alookup, adelete]
  | cons p t ih =>
    by_cases hk : p.1 = k
    · simpa [alookup, adelete, hk, Ne.symm h] using ih
    · by_cases hk' : p.1 = k'
      · simp [alookup, adelete, hk, hk', h]
      · simpa [alookup, adelete, hk, hk'] using ih

theorem alookup_aset_self (l : List (α × β)) (k : α) (v : β) :
    alookup (aset l k v) k = some v := by
  rw [aset, alookup_append_none (alookup_adelete_self l k)]
  simp [alookup]

theorem alookup_aset_ne (l : List (α × β)) {k k' : α} (v : β) (h : k' ≠ k) :
    alookup (aset l k v) k' = alookup l k' := by
  rcases hc : alookup (adelete l k) k' with _ | w
  · rw [aset, alookup_append_none hc, ← alookup_adelete_ne l h, hc]
    simp only [alookup]
    rw [if_neg (Ne.symm h)]
  · rw [aset, alookup_append_some hc, ← alookup_adelete_ne l h, hc]

theorem mem_adelete {l : List (α × β)} {k : α} {q : α × β} (h : q ∈ adelete l k) :
    q ∈ l := List.mem_of_mem_filter h

theorem mem_aset {l : List (α × β)} {k : α} {v : β} {q : α × β} (h : q ∈ aset l k v) :
    q ∈ l ∨ q = (k, v) := by
  rcases List.mem_append.mp h with h1 | h1
  · exact Or.inl (mem_adelete h1)
  · simp at h1
    exact Or.inr h1

end AssocLemmas

/-! Lemmas about the attendee filter used by `handleCancelRegistration`. -/

theorem filter_ne_of_not_mem {u : String} {cur : List String} (h : u ∉ cur) :
    cur.filter (fun i => decide (i ≠ u)) = cur := by
  apply List.filter_eq_self.mpr
  intro a ha
  simp only [decide_eq_true_iff]
  exact fun hau => h (hau ▸ ha)

theorem filter_ne_length_lt {u : String} {cur : List String} (h : u ∈ cur) :
    (cur.filter (fun i => decide (i ≠ u))).length < cur.length := by
  induction cur with
  | nil => cases h
  | cons a t ih =>
    by_cases hau : a = u
    · subst hau
      have hstep : (a :: t).filter (fun i => decide (i ≠ a)) = t.filter (fun i => decide (i ≠ a)) := by
        simp [List.filter_cons]
      rw [hstep]
      calc (t.filter (fun i => decide (i ≠ a))).length ≤ t.length := List.length_filter_le _ _
        _ < (a :: t).length := by simp
    · have hu : u ∈ t := by
        rcases List.mem_cons.mp h with h1 | h1
        · exact absurd h1.symm hau
        · exact h1
      have hstep : (a :: t).filter (fun i => decide (i ≠ u)) = a :: t.filter (fun i => decide (i ≠ u)) := by
        simp [List.filter_cons, hau]
      rw [hstep]
      simpa using ih hu

theorem filter_ne_length_eq_iff {u : String} {cur : List String} :
    (cur.filter (fun i => decide (i ≠ u))).length = cur.length ↔ u ∉ cur := by
  constructor
  · intro h hu
    exact absurd h (Nat.ne_of_lt (filter_ne_length_lt hu))
  · intro h
    rw [filter_ne_of_not_mem h]

/-! The capacity invariant and its preservation. -/

theorem capOkL_aupdate {l : List (Nat × Event)} {id : Nat} {f : Event → Event}
    (hs : capOkL l)
    (hf : ∀ ev, alookup l id = some ev → (f ev).attendees.length ≤ (f ev).capacity) :
    capOkL (aupdate l id f) := by
  intro k ev h
  by_cases hk : k = id
  · subst hk
    rw [alookup_aupdate_self] at h
    cases hev : alookup l k with
    | none => rw [hev] at h; cases h
    | some ev0 =>
      rw [hev] at h
      simp only [Option.map_some'] at h
      injection h with hh
      rw [← hh]
      exact hf ev0 hev
  · rw [alookup_aupdate_ne _ _ hk] at h
    exact hs k ev h

theorem capOk_step {s : Store} {op : Op} (hs : capOkL s.events)
    (hop : editSafeB s op = true) : capOkL (step s op).events := by
  cases op with
  | create sess d =>
    intro k ev h
    simp only [step, handleSaveEvent] at h
    rcases hcase : alookup s.events k with _ | ev0
    · rw [alookup_append_none hcase] at h
      simp only [alookup] at h
      by_cases hn : s.nextId = k
      · rw [if_pos hn] at h
        injection h with hh
        rw [← hh]
        simp [mkNewEvent]
      · rw [if_neg hn] at h; cases h
    · rw [alookup_append_some hcase] at h
      injection h with hh
      rw [← hh]
      exact hs k ev0 hcase
  | edit sess id d =>
    simp only [editSafeB] at hop
    cases hev : alookup s.events id with
    | none => simpa [step, handleSaveEvent, hev] using hs
    | some ev0 =>
      rw [hev] at hop
      simp only [step, handleSaveEvent, hev]
      refine capOkL_aupdate hs (fun ev hev2 => ?_)
      rw [hev] at hev2
      injection hev2 with hh
      subst hh
      simpa [applyEdit] using of_decide_eq_true hop
  | register u id now =>
    cases hev : alookup s.events id with
    | none => simpa [step, handleRegister, hev] using hs
    | some ev0 =>
      by_cases hmem : u ∈ ev0.attendees
      · simpa [step, handleRegister, hev, hmem] using hs
      · by_cases hfull : ev0.attendees.length ≥ ev0.capacity
        · simpa [step, handleRegister, hev, hmem, hfull] using hs
        · simp only [step, handleRegister, hev, if_neg hmem, if_neg hfull]
          refine capOkL_aupdate hs (fun ev hev2 => ?_)
          rw [hev] at hev2
          injection hev2 with hh
          subst hh
          simp only [List.length_append, List.length_singleton]
          omega
  | cancel u id =>
    cases hev : alookup s.events id with
    | none => simpa [step, handleCancelRegistration, hev] using hs
    | some ev0 =>
      by_cases hlen : (ev0.attendees.filter (fun i => decide (i ≠ u))).length = ev0.attendees.length
      · have hred : step s (Op.cancel u id) = s := by
          simp only [step, handleCancelRegistration, hev, if_pos hlen]
        rw [hred]
        exact hs
      · simp only [step, handleCancelRegistration, hev, if_neg hlen]
        refine capOkL_aupdate hs (fun ev hev2 => ?_)
        rw [hev] at hev2
        injection hev2 with hh
        subst hh
        calc (ev0.attendees.filter (fun i => decide (i ≠ u))).length
            ≤ ev0.attendees.length := List.length_filter_le _ _
          _ ≤ ev0.capacity := hs id ev0 hev
  | approve sess id =>
    by_cases hadm : sess.isAdmin = true
    · cases hev : alookup s.events id with
      | none => simpa [step, handleApproveEvent, hadm, hev] using hs
      | some ev0 =>
        simp only [step, handleApproveEvent, hadm, if_true, hev]
        refine capOkL_aupdate hs (fun ev hev2 => ?_)
        rw [hev] at hev2
        injection hev2 with hh
        subst hh
        simpa using hs id ev0 hev
    · simpa [step, handleApproveEvent, hadm] using hs
  | reject sess id =>
    by_cases hadm : sess.isAdmin = true
    · cases hev : alookup s.events id with
      | none => simpa [step, handleRejectEvent, hadm, hev] using hs
      | some ev0 =>
        simp only [step, handleRejectEvent, hadm, if_true, hev]
        refine capOkL_aupdate hs (fun ev hev2 => ?_)
        rw [hev] at hev2
        injection hev2 with hh
        subst hh
        simpa using hs id ev0 hev
    · simpa [step, handleRejectEvent, hadm] using hs
  | delete id =>
    intro k ev h
    simp only [step, handleDeleteEvent] at h
    by_cases hk : k = id
    · subst hk
      rw [alookup_adelete_self] at h
      cases h
    · rw [alookup_adelete_ne _ hk] at h
      exact hs k ev h

theorem capOk_exec : ∀ (ops : List Op) (s : Store), capOkL s.events →
    execSafeB s ops = true → capOkL (exec s ops).events := by
  intro ops
  induction ops with
  | nil => intro s h _; exact h
  | cons op rest ih =>
    intro s h hsafe
    simp only [execSafeB, Bool.and_eq_true] at hsafe
    exact ih (step s op) (capOk_step h hsafe.1) hsafe.2

/-! Status-machine helper lemmas. -/

theorem setStatus_eq_self {ev : Event} {st : Status} (h : ev.status = st) :
    { ev with status := st } = ev := by
  cases ev
  cases h
  rfl

theorem step_status (s : Store) (op : Op) (e : Nat) (ev' : Event)
    (h' : alookup (step s op).events e = some ev') :
    (∃ ev, alookup s.events e = some ev ∧ ev'.status = ev.status) ∨
      ev'.status = Status.approved ∨ ev'.status = Status.rejected ∨
      alookup s.events e = none := by
  cases op with
  | create sess d =>
    simp only [step, handleSaveEvent] at h'
    rcases hcase : alookup s.events e with _ | ev0
    · exact Or.inr (Or.inr (Or.inr rfl))
    · rw [alookup_append_some hcase] at h'
      injection h' with hh
      exact Or.inl ⟨ev0, rfl, by rw [← hh]⟩
  | edit sess id d =>
    cases hev : alookup s.events id with
    | none =>
      simp only [step, handleSaveEvent, hev] at h'
      exact Or.inl ⟨ev', h', rfl⟩
    | some ev0 =>
      simp only [step, handleSaveEvent, hev] at h'
      by_cases he : e = id
      · subst he
        rw [alookup_aupdate_self, hev] at h'
        simp only [Option.map_some'] at h'
        injection h' with hh
        exact Or.inl ⟨ev0, hev, by rw [← hh]; rfl⟩
      · rw [alookup_aupdate_ne _ _ he] at h'
        exact Or.inl ⟨ev', h', rfl⟩
  | register u id now =>
    cases hev : alookup s.events id with
    | none =>
      simp only [step, handleRegister, hev] at h'
      exact Or.inl ⟨ev', h', rfl⟩
    | some ev0 =>
      by_cases hmem : u ∈ ev0.attendees
      · simp only [step, handleRegister, hev, if_pos hmem] at h'
        exact Or.inl ⟨ev', h', rfl⟩
      · by_cases hfull : ev0.attendees.length ≥ ev0.capacity
        · simp only [step, handleRegister, hev, if_neg hmem, if_pos hfull] at h'
          exact Or.inl ⟨ev', h', rfl⟩
        · simp only [step, handleRegister, hev, if_neg hmem, if_neg hfull] at h'
          by_cases he : e = id
          · subst he
            rw [alookup_aupdate_self, hev] at h'
            simp only [Option.map_some'] at h'
            injection h' with hh
            exact Or.inl ⟨ev0, hev, by rw [← hh]⟩
          · rw [alookup_aupdate_ne _ _ he] at h'
            exact Or.inl ⟨ev', h', rfl⟩
  | cancel u id =>
    cases hev : alookup s.events id with
    | none =>
      simp only [step, handleCancelRegistration, hev] at h'
      exact Or.inl ⟨ev', h', rfl⟩
    | some ev0 =>
      by_cases hlen : (ev0.attendees.filter (fun i => decide (i ≠ u))).length = ev0.attendees.length
      · simp only [step, handleCancelRegistration, hev, if_pos hlen] at h'
        exact Or.inl ⟨ev', h', rfl⟩
      · simp only [step, handleCancelRegistration, hev, if_neg hlen] at h'
        by_cases he : e = id
        · subst he
          rw [alookup_aupdate_self, hev] at h'
          simp only [Option.map_some'] at h'
          injection h' with hh
          exact Or.inl ⟨ev0, hev, by rw [← hh]⟩
        · rw [alookup_aupdate_ne _ _ he] at h'
          exact Or.inl ⟨ev', h', rfl⟩
  | approve sess id =>
    by_cases hadm : sess.isAdmin = true
    · cases hev : alookup s.events id with
      | none =>
        simp only [step, handleApproveEvent, hadm, if_true, hev] at h'
        exact Or.inl ⟨ev', h', rfl⟩
      | some ev0 =>
        simp only [step, handleApproveEvent, hadm, if_true, hev] at h'
        by_cases he : e = id
        · subst he
          rw [alookup_aupdate_self, hev] at h'
          simp only [Option.map_some'] at h'
          injection h' with hh
          exact Or.inr (Or.inl (by rw [← hh]))
        · rw [alookup_aupdate_ne _ _ he] at h'
          exact Or.inl ⟨ev', h', rfl⟩
    · simp only [step, handleApproveEvent, hadm, if_false] at h'
      exact Or.inl ⟨ev', h', rfl⟩
  | reject sess id =>
    by_cases hadm : sess.isAdmin = true
    · cases hev : alookup s.events id with
      | none =>
        simp only [step, handleRejectEvent, hadm, if_true, hev] at h'
        exact Or.inl ⟨ev', h', rfl⟩
      | some ev0 =>
        simp only [step, handleRejectEvent, hadm, if_true, hev] at h'
        by_cases he : e = id
        · subst he
          rw [alookup_aupdate_self, hev] at h'
          simp only [Option.map_some'] at h'
          injection h' with hh
          exact Or.inr (Or.inr (Or.inl (by rw [← hh])))
        · rw [alookup_aupdate_ne _ _ he] at h'
          exact Or.inl ⟨ev', h', rfl⟩
    · simp only [step, handleRejectEvent, hadm, if_false] at h'
      exact Or.inl ⟨ev', h', rfl⟩
  | delete id =>
    simp only [step, handleDeleteEvent] at h'
    by_cases he : e = id
    · subst he
      rw [alookup_adelete_self] at h'
      cases h'
    · rw [alookup_adelete_ne _ he] at h'
      exact Or.inl ⟨ev', h', rfl⟩

/-! Claim C1. -/

/-- C1 counterexample: the capacity bound is not an invariant of all
sequentially reachable committed states. Creating a capacity-2 event,
filling it with two registrants, and then editing the event with the
capacity field lowered to 1 commits a state in which the event has two
attendees and capacity 1. -/
theorem c1_capacity_counterexample :
    ¬ (∀ (ops : List Op) (k : Nat) (ev : Event),
        alookup (exec emptyStore ops).events k = some ev →
        ev.attendees.length ≤ ev.capacity) := by
  intro hclaim
  have h := hclaim c1BadOps 0 c1BadEvent (by decide)
  exact absurd h (by decide)

/-- C1 (amended): for every event, in every committed store state reachable
by a sequence of the engine's operations executed sequentially by a single
client in which every edit keeps the edited event's capacity at or above
its current attendee count, the number of attendees is at most the event's
capacity. (The unrestricted claim fails because an edit may lower
capacity below the current attendee count.) -/
theorem c1_capacity_invariant (ops : List Op) (k : Nat) (ev : Event)
    (hsafe : execSafeB emptyStore ops = true)
    (h : alookup (exec emptyStore ops).events k = some ev) :
    ev.attendees.length ≤ ev.capacity :=
  capOk_exec ops emptyStore (fun _ _ h0 => by simp [emptyStore, alookup] at h0) hsafe k ev h

/-- C1 witness: a concrete safe sequence (create capacity 2, register two
users with an intermediate capacity-preserving edit, cancel one) whose
final committed event satisfies the bound via `c1_capacity_invariant`. -/
theorem c1_capacity_witness :
    execSafeB emptyStore c1GoodOps = true ∧
      alookup (exec emptyStore c1GoodOps).events 0 = some c1GoodEvent ∧
      c1GoodEvent.attendees.length ≤ c1GoodEvent.capacity :=
  ⟨by decide, by decide, c1_capacity_invariant c1GoodOps 0 c1GoodEvent (by decide) (by decide)⟩

/-! Claim C2. -/

/-- C2 counterexample: status transitions are not confined to
pending-to-approved and pending-to-rejected, and approve on a non-pending
event is not a no-op: after an admin rejects a pending event, a further
admin approve commits the rejected-to-approved transition. -/
theorem c2_status_counterexample :
    statusOf (exec emptyStore c2Ops) 0 = some Status.rejected ∧
      statusOf ((handleApproveEvent sessAdmin 0 (exec emptyStore c2Ops)).2) 0
        = some Status.approved := by
  decide

/-- C2 (amended): an event's status starts at pending on creation with
empty attendees; no operation ever returns a status to pending; calling
approve on an already-approved event (or reject on an already-rejected
one) is an idempotent no-op write; but approve and reject overwrite the
status without checking it, so approve on a rejected event commits
approved (and symmetrically), which the original claim excluded. -/
theorem c2_status_machine :
    (∀ (sess : Session) (d : EventData) (s : Store),
        (handleSaveEvent sess none d s).2.events
            = s.events ++ [(s.nextId, mkNewEvent sess d)] ∧
          (mkNewEvent sess d).status = Status.pending ∧
          (mkNewEvent sess d).attendees = []) ∧
      (∀ (s : Store) (sess : Session) (e : Nat) (ev : Event),
        sess.isAdmin = true → alookup s.events e = some ev →
        (∀ p ∈ s.events, p.1 = e → p.2.status = Status.approved) →
        handleApproveEvent sess e s = (EngineResult.ok, s)) ∧
      (∀ (s : Store) (sess : Session) (e : Nat) (ev : Event),
        sess.isAdmin = true → alookup s.events e = some ev →
        (∀ p ∈ s.events, p.1 = e → p.2.status = Status.rejected) →
        handleRejectEvent sess e s = (EngineResult.ok, s)) ∧
      (∀ (s : Store) (op : Op) (e : Nat) (ev ev' : Event),
        alookup s.events e = some ev → ev.status ≠ Status.pending →
        alookup (step s op).events e = some ev' → ev'.status ≠ Status.pending) := by
  refine ⟨fun sess d s => ⟨rfl, rfl, rfl⟩, ?_, ?_, ?_⟩
  · intro s sess e ev hadm hev hall
    have hupd : aupdate s.events e (fun v => { v with status := Status.approved }) = s.events :=
      aupdate_eq_self (fun v hv => setStatus_eq_self (hall (e, v) hv rfl))
    simp only [handleApproveEvent, hadm, if_true, hev, hupd]
  · intro s sess e ev hadm hev hall
    have hupd : aupdate s.events e (fun v => { v with status := Status.rejected }) = s.events :=
      aupdate_eq_self (fun v hv => setStatus_eq_self (hall (e, v) hv rfl))
    simp only [handleRejectEvent, hadm, if_true, hev, hupd]
  · intro s op e ev ev' hev hnp h'
    rcases step_status s op e ev' h' with ⟨ev0, hev0, hst⟩ | hst | hst | hnone
    · rw [hev0] at hev
      injection hev with hh
      rw [hst, hh]
      exact hnp
    · rw [hst]; intro hc; cases hc
    · rw [hst]; intro hc; cases hc
    · rw [hnone] at hev; cases hev

/-- C2 witness: on a store holding an already-approved event, an admin
approve returns ok and leaves the store unchanged, and a registration step
keeps the event's status away from pending. -/
theorem c2_status_witness :
    handleApproveEvent sessAdmin 0 c2ApprovedStore = (EngineResult.ok, c2ApprovedStore) ∧
      c2AfterRegEvent.status ≠ Status.pending :=
  ⟨c2_status_machine.2.1 c2ApprovedStore sessAdmin 0 c2ApprovedEvent (by decide) (by decide)
      (by decide),
    c2_status_machine.2.2.2 c2ApprovedStore (Op.register "A" 0 "t1") 0 c2ApprovedEvent
      c2AfterRegEvent (by decide) (by decide) (by decide)⟩

/-! Claim C3. -/

/-- C3 counterexample: authorization is not re-checked against the Profile
on every call. A session that cached `isAdmin = true` at sign-in can still
approve after the profile is demoted to `isAdmin = false`: the call
returns ok and changes the event's status even though the actor's Profile
no longer has `isAdmin = true`. -/
theorem c3_admin_counterexample :
    (alookup c3Store.profiles "u").map Profile.isAdmin = some false ∧
      (handleApproveEvent c3Session 0 c3Store).1 = EngineResult.ok ∧
      statusOf (handleApproveEvent c3Session 0 c3Store).2 0 = some Status.approved := by
  decide

/-- C3 (amended): approve and reject fail with Unauthorized and leave the
store unchanged unless the calling session's cached `isAdmin` flag is
true; that flag is read from the actor's Profile once when the session is
resolved at auth-state change (defaulting to false when the profile is
created lazily); and neither call consults the profile collection, so the
admin decision is cached for the session rather than re-checked per call. -/
theorem c3_admin_authorization :
    (∀ (sess : Session) (e : Nat) (s : Store), sess.isAdmin = false →
        handleApproveEvent sess e s = (EngineResult.unauthorized, s) ∧
          handleRejectEvent sess e s = (EngineResult.unauthorized, s)) ∧
      (∀ (uid email : String) (s : Store),
        ((resolveSession uid email s).1).isAdmin
            = (match alookup s.profiles uid with
               | some p => p.isAdmin
               | none => false)) ∧
      (∀ (sess : Session) (e : Nat) (s : Store) (profs : List (String × Profile)),
        (handleApproveEvent sess e { s with profiles := profs }).1
            = (handleApproveEvent sess e s).1 ∧
          ((handleApproveEvent sess e { s with profiles := profs }).2).events
            = ((handleApproveEvent sess e s).2).events ∧
          (handleRejectEvent sess e { s with profiles := profs }).1
            = (handleRejectEvent sess e s).1 ∧
          ((handleRejectEvent sess e { s with profiles := profs }).2).events
            = ((handleRejectEvent sess e s).2).events) := by
  refine ⟨?_, ?_, ?_⟩
  · intro sess e s hadm
    constructor
    · simp [handleApproveEvent, hadm]
    · simp [handleRejectEvent, hadm]
  · intro uid email s
    cases halook : alookup s.profiles uid with
    | none => simp [resolveSession, halook]
    | some p => simp [resolveSession, halook]
  · intro sess e s profs
    by_cases hadm : sess.isAdmin = true
    · cases hev : alookup s.events e with
      | none =>
        refine ⟨?_, ?_, ?_, ?_⟩ <;>
          simp [handleApproveEvent, handleRejectEvent, hadm, hev]
      | some ev =>
        refine ⟨?_, ?_, ?_, ?_⟩ <;>
          simp [handleApproveEvent, handleRejectEvent, hadm, hev]
    · refine ⟨?_, ?_, ?_, ?_⟩ <;>
        simp [handleApproveEvent, handleRejectEvent, hadm]

/-- C3 witness: a non-admin session attempting approve on a concrete store
is refused with Unauthorized and the store is unchanged. -/
theorem c3_admin_witness :
    sessCreator.isAdmin = false ∧
      handleApproveEvent sessCreator 0 c2ApprovedStore
        = (EngineResult.unauthorized, c2ApprovedStore) :=
  ⟨by decide, (c3_admin_authorization.1 sessCreator 0 c2ApprovedStore (by decide)).1⟩

/-! Inversion of a successful registration, shared by several claims. -/

theorem register_ok_inv {s : Store} {u : String} {e : Nat} {now : String} {s1 : Store}
    {w : List Write} (h : handleRegister u e now s = (EngineResult.ok, s1, w)) :
    ∃ ev, alookup s.events e = some ev ∧ u ∉ ev.attendees ∧
      ev.attendees.length < ev.capacity ∧
      s1 = { s with
              events := aupdate s.events e (fun ev0 => { ev0 with attendees := ev.attendees ++ [u] })
              registrations := aset s.registrations (u, e) now } ∧
      w = [Write.updateAttendees e (ev.attendees ++ [u]), Write.setRegistrationRecord u e now] := by
  cases hev : alookup s.events e with
  | none => simp [handleRegister, hev] at h
  | some ev =>
    by_cases hmem : u ∈ ev.attendees
    · rw [handleRegister] at h
      rw [hev] at h
      simp only [if_pos hmem, Prod.mk.injEq] at h
      cases h.1
    · by_cases hfull : ev.attendees.length ≥ ev.capacity
      · rw [handleRegister] at h
        rw [hev] at h
        simp only [if_neg hmem, if_pos hfull, Prod.mk.injEq] at h
        cases h.1
      · rw [handleRegister] at h
        rw [hev] at h
        simp only [if_neg hmem, if_neg hfull, Prod.mk.injEq] at h
        exact ⟨ev, rfl, hmem, lt_of_not_ge hfull, h.2.1.symm, h.2.2.symm⟩

theorem register_ok_lookup {s : Store} {u : String} {e : Nat} {now : String} {s1 : Store}
    {ev : Event} (hev : alookup s.events e = some ev)
    (hs1 : s1 = { s with
        events := aupdate s.events e (fun ev0 => { ev0 with attendees := ev.attendees ++ [u] })
        registrations := aset s.registrations (u, e) now }) :
    alookup s1.events e = some { ev with attendees := ev.attendees ++ [u] } := by
  subst hs1
  show alookup (aupdate s.events e (fun ev0 => { ev0 with attendees := ev.attendees ++ [u] })) e
    = some { ev with attendees := ev.attendees ++ [u] }
  rw [alookup_aupdate_self, hev]
  rfl

/-! Claim C4. -/

/-- C4: for every existing event and registrant not already in its
attendees, when the attendee count is below capacity, register returns ok,
commits the appended attendee list to the event document, creates the
registration record, and issues the attendee-list update strictly before
the registration-record write. -/
theorem c4_register_write_order (s : Store) (u : String) (e : Nat) (now : String) (ev : Event)
    (hev : alookup s.events e = some ev) (hmem : u ∉ ev.attendees)
    (hcap : ev.attendees.length < ev.capacity) :
    handleRegister u e now s =
      (EngineResult.ok,
        { s with
            events := aupdate s.events e (fun ev0 => { ev0 with attendees := ev.attendees ++ [u] })
            registrations := aset s.registrations (u, e) now },
        [Write.updateAttendees e (ev.attendees ++ [u]), Write.setRegistrationRecord u e now]) := by
  have hge : ¬ (ev.attendees.length ≥ ev.capacity) := not_le.mpr hcap
  rw [handleRegister]
  rw [hev]
  simp only [if_neg hmem, if_neg hge]

/-- C4 witness: registering A to the empty approved capacity-1 event
issues the attendee update and then the registration-record write. -/
theorem c4_register_write_order_witness :
    ("A" ∉ c2ApprovedEvent.attendees) ∧
      c2ApprovedEvent.attendees.length < c2ApprovedEvent.capacity ∧
      (handleRegister "A" 0 "t1" c2ApprovedStore).2.2
        = [Write.updateAttendees 0 ["A"], Write.setRegistrationRecord "A" 0 "t1"] := by
  refine ⟨by decide, by decide, ?_⟩
  rw [c4_register_write_order c2ApprovedStore "A" 0 "t1" c2ApprovedEvent (by decide) (by decide)
    (by decide)]
  decide

/-! Claim C5. -/

/-- C5: register fails with AlreadyRegistered, performing no write, whenever
the registrant already appears in the event's attendees; in particular a
second register for the same event and identity after a successful one
fails with AlreadyRegistered and leaves the store unchanged. -/
theorem c5_already_registered :
    (∀ (s : Store) (u : String) (e : Nat) (now : String) (ev : Event),
        alookup s.events e = some ev → u ∈ ev.attendees →
        handleRegister u e now s = (EngineResult.alreadyRegistered, s, [])) ∧
      (∀ (s : Store) (u : String) (e : Nat) (now now2 : String) (s1 : Store) (w : List Write),
        handleRegister u e now s = (EngineResult.ok, s1, w) →
        handleRegister u e now2 s1 = (EngineResult.alreadyRegistered, s1, [])) := by
  constructor
  · intro s u e now ev hev hmem
    rw [handleRegister]
    rw [hev]
    simp only [if_pos hmem]
  · intro s u e now now2 s1 w h
    obtain ⟨ev, hev, hmem, hcap, hs1, hw⟩ := register_ok_inv h
    have hlook := register_ok_lookup hev hs1
    have hmem1 : u ∈ ({ ev with attendees := ev.attendees ++ [u] } : Event).attendees := by
      simp
    rw [handleRegister]
    rw [hlook]
    simp only [if_pos hmem1]

/-- C5 witness: A registers for the approved capacity-1 event and then
tries to register again; the second call fails with AlreadyRegistered and
changes nothing. -/
theorem c5_already_registered_witness :
    (handleRegister "A" 0 "t1" c6Store0).1 = EngineResult.ok ∧
      handleRegister "A" 0 "t2" c6Store1 = (EngineResult.alreadyRegistered, c6Store1, []) :=
  ⟨by decide,
    c5_already_registered.2 c6Store0 "A" 0 "t1" "t2" c6Store1
      (handleRegister "A" 0 "t1" c6Store0).2.2 (by decide)⟩

/-! Claim C6. -/

/-- C6 counterexample: it is not true that register fails with EventFull on
every event whose attendee count has reached capacity: when the registrant
is already among the attendees of the full event, the call fails with
AlreadyRegistered instead, because the membership check precedes the
capacity check. -/
theorem c6_event_full_counterexample :
    ¬ (∀ (s : Store) (u : String) (e : Nat) (now : String) (ev : Event),
        alookup s.events e = some ev → ev.attendees.length ≥ ev.capacity →
        (handleRegister u e now s).1 = EngineResult.eventFull) := by
  intro hclaim
  have h := hclaim c6Store1 "A" 0 "t2" c6FullEvent (by decide) (by decide)
  exact absurd h (by decide)

/-- C6 (amended): register fails with EventFull, performing no write, on
every existing event whose attendee count has reached capacity, provided
the registrant is not already among the attendees (otherwise
AlreadyRegistered takes precedence); and the capacity-1 scenario holds:
A registers successfully giving attendees [A], B then fails with
EventFull, after A cancels the attendees are empty, and B then registers
successfully giving attendees [B]. -/
theorem c6_event_full :
    (∀ (s : Store) (u : String) (e : Nat) (now : String) (ev : Event),
        alookup s.events e = some ev → u ∉ ev.attendees →
        ev.attendees.length ≥ ev.capacity →
        handleRegister u e now s = (EngineResult.eventFull, s, [])) ∧
      ((handleRegister "A" 0 "t1" c6Store0).1 = EngineResult.ok ∧
        attendeesOf c6Store1 0 = some ["A"] ∧
        handleRegister "B" 0 "t2" c6Store1 = (EngineResult.eventFull, c6Store1, []) ∧
        (handleCancelRegistration "A" 0 c6Store1).1 = EngineResult.ok ∧
        attendeesOf c6Store2 0 = some [] ∧
        (handleRegister "B" 0 "t3" c6Store2).1 = EngineResult.ok ∧
        attendeesOf (handleRegister "B" 0 "t3" c6Store2).2.1 0 = some ["B"]) := by
  constructor
  · intro s u e now ev hev hmem hfull
    rw [handleRegister]
    rw [hev]
    simp only [if_neg hmem, if_pos hfull]
  · exact ⟨by decide, by decide, by decide, by decide, by decide, by decide, by decide⟩

/-- C6 witness: B attempting to register for the full capacity-1 event is
refused with EventFull and nothing is written. -/
theorem c6_event_full_witness :
    alookup c6Store1.events 0 = some c6FullEvent ∧ ("B" ∉ c6FullEvent.attendees) ∧
      c6FullEvent.attendees.length ≥ c6FullEvent.capacity ∧
      handleRegister "B" 0 "t9" c6Store1 = (EngineResult.eventFull, c6Store1, []) :=
  ⟨by decide, by decide, by decide,
    (c6_event_full.1 c6Store1 "B" 0 "t9" c6FullEvent (by decide) (by decide) (by decide))⟩

/-! Further association-list helpers for the registration invariant. -/

theorem alookup_ne_none {α β : Type} [DecidableEq α] {l : List (α × β)} {k : α}
    (h : alookup l k ≠ none) : ∃ v, alookup l k = some v := by
  cases hc : alookup l k with
  | none => exact absurd hc h
  | some v => exact ⟨v, rfl⟩

theorem mem_aupdate_fst {α β : Type} [DecidableEq α] {l : List (α × β)} {k : α}
    {f : β → β} {q : α × β} (h : q ∈ aupdate l k f) : ∃ p ∈ l, q.1 = p.1 := by
  rcases List.mem_map.mp h with ⟨p, hp, hq⟩
  by_cases hk : p.1 = k
  · rw [if_pos hk] at hq
    exact ⟨p, hp, by rw [← hq]⟩
  · rw [if_neg hk] at hq
    exact ⟨p, hp, by rw [← hq]⟩

theorem alookup_aupdate_cases {α β : Type} [DecidableEq α] {l : List (α × β)} {id k : α}
    {f : β → β} {v : β} (h : alookup (aupdate l id f) k = some v) :
    (k = id ∧ ∃ v0, alookup l k = some v0 ∧ v = f v0) ∨ (k ≠ id ∧ alookup l k = some v) := by
  by_cases hk : k = id
  · subst hk
    rw [alookup_aupdate_self] at h
    cases hc : alookup l k with
    | none => rw [hc] at h; cases h
    | some v0 =>
      rw [hc] at h
      simp only [Option.map_some'] at h
      injection h with hh
      exact Or.inl ⟨rfl, v0, rfl, hh.symm⟩
  · rw [alookup_aupdate_ne _ _ hk] at h
    exact Or.inr ⟨hk, h⟩

/-! Preservation of the registration-record invariant. -/

theorem regInv_step {s : Store} (op : Op) (h : regInv s) : regInv (step s op) := by
  obtain ⟨hb1, hb2, hb3⟩ := h
  cases op with
  | create sess d =>
    refine ⟨?_, ?_, ?_⟩
    · intro p hp
      simp only [step, handleSaveEvent] at hp ⊢
      rcases List.mem_append.mp hp with hold | hnew
      · exact Nat.lt_succ_of_lt (hb1 p hold)
      · rw [List.mem_singleton.mp hnew]
        exact Nat.lt_succ_self _
    · intro q hq
      simp only [step, handleSaveEvent] at hq ⊢
      exact Nat.lt_succ_of_lt (hb2 q hq)
    · intro k ev u hlook hne
      simp only [step, handleSaveEvent] at hlook hne
      rcases hcase : alookup s.events k with _ | ev0
      · rw [alookup_append_none hcase] at hlook
        simp only [alookup] at hlook
        by_cases hn : s.nextId = k
        · exfalso
          rcases alookup_ne_none hne with ⟨t, ht⟩
          have hb := hb2 ((u, k), t) (alookup_mem ht)
          simp only at hb
          omega
        · rw [if_neg hn] at hlook
          cases hlook
      · rw [alookup_append_some hcase] at hlook
        injection hlook with hh
        subst hh
        exact hb3 k ev0 u hcase hne
  | edit sess id d =>
    cases hev : alookup s.events id with
    | none =>
      have hred : step s (Op.edit sess id d) = s := by
        simp only [step, handleSaveEvent, hev]
      rw [hred]
      exact ⟨hb1, hb2, hb3⟩
    | some ev0 =>
      refine ⟨?_, ?_, ?_⟩
      · intro p hp
        simp only [step, handleSaveEvent, hev] at hp ⊢
        rcases mem_aupdate_fst hp with ⟨p0, hp0, hfst⟩
        rw [hfst]
        exact hb1 p0 hp0
      · intro q hq
        simp only [step, handleSaveEvent, hev] at hq ⊢
        exact hb2 q hq
      · intro k ev u hlook hne
        simp only [step, handleSaveEvent, hev] at hlook hne
        rcases alookup_aupdate_cases hlook with ⟨hk, ev1, hev1, hevf⟩ | ⟨_, hlook'⟩
        · subst hk
          rw [hevf]
          exact hb3 k ev1 u hev1 hne
        · exact hb3 k ev u hlook' hne
  | register u0 e0 now =>
    cases hev : alookup s.events e0 with
    | none =>
      have hred : step s (Op.register u0 e0 now) = s := by
        simp only [step, handleRegister, hev]
      rw [hred]
      exact ⟨hb1, hb2, hb3⟩
    | some ev0 =>
      by_cases hmem : u0 ∈ ev0.attendees
      · have hred : step s (Op.register u0 e0 now) = s := by
          simp only [step, handleRegister, hev, if_pos hmem]
        rw [hred]
        exact ⟨hb1, hb2, hb3⟩
      · by_cases hfull : ev0.attendees.length ≥ ev0.capacity
        · have hred : step s (Op.register u0 e0 now) = s := by
            simp only [step, handleRegister, hev, if_neg hmem, if_pos hfull]
          rw [hred]
          exact ⟨hb1, hb2, hb3⟩
        · refine ⟨?_, ?_, ?_⟩
          · intro p hp
            simp only [step, handleRegister, hev, if_neg hmem, if_neg hfull] at hp ⊢
            rcases mem_aupdate_fst hp with ⟨p0, hp0, hfst⟩
            rw [hfst]
            exact hb1 p0 hp0
          · intro q hq
            simp only [step, handleRegister, hev, if_neg hmem, if_neg hfull] at hq ⊢
            rcases mem_aset hq with hold | hnew
            · exact hb2 q hold
            · rw [hnew]
              exact hb1 (e0, ev0) (alookup_mem hev)
          · intro k ev u hlook hne
            simp only [step, handleRegister, hev, if_neg hmem, if_neg hfull] at hlook hne
            by_cases hpair : ((u : String), k) = ((u0 : String), e0)
            · have hu : u = u0 := congrArg Prod.fst hpair
              have hk : k = e0 := congrArg Prod.snd hpair
              subst hu
              subst hk
              rcases alookup_aupdate_cases hlook with ⟨_, ev1, hev1, hevf⟩ | ⟨hkne, _⟩
              · rw [hevf]
                show u ∈ ev0.attendees ++ [u]
                simp
              · exact absurd rfl hkne
            · rw [alookup_aset_ne _ _ hpair] at hne
              rcases alookup_aupdate_cases hlook with ⟨hk, ev1, hev1, hevf⟩ | ⟨_, hlook'⟩
              · subst hk
                have hu := hb3 k ev0 u hev hne
                rw [hevf]
                show u ∈ ev0.attendees ++ [u0]
                exact List.mem_append_left _ hu
              · exact hb3 k ev u hlook' hne
  | cancel u0 e0 =>
    cases hev : alookup s.events e0 with
    | none =>
      have hred : step s (Op.cancel u0 e0) = s := by
        simp only [step, handleCancelRegistration, hev]
      rw [hred]
      exact ⟨hb1, hb2, hb3⟩
    | some ev0 =>
      by_cases hlen : (ev0.attendees.filter (fun i => decide (i ≠ u0))).length
          = ev0.attendees.length
      · have hred : step s (Op.cancel u0 e0) = s := by
          simp only [step, handleCancelRegistration, hev, if_pos hlen]
        rw [hred]
        exact ⟨hb1, hb2, hb3⟩
      · refine ⟨?_, ?_, ?_⟩
        · intro p hp
          simp only [step, handleCancelRegistration, hev, if_neg hlen] at hp ⊢
          rcases mem_aupdate_fst hp with ⟨p0, hp0, hfst⟩
          rw [hfst]
          exact hb1 p0 hp0
        · intro q hq
          simp only [step, handleCancelRegistration, hev, if_neg hlen] at hq ⊢
          exact hb2 q (mem_adelete hq)
        · intro k ev u hlook hne
          simp only [step, handleCancelRegistration, hev, if_neg hlen] at hlook hne
          by_cases hpair : ((u : String), k) = ((u0 : String), e0)
          · rw [hpair] at hne
            exact absurd (alookup_adelete_self _ _) hne
          · rw [alookup_adelete_ne _ hpair] at hne
            rcases alookup_aupdate_cases hlook with ⟨hk, ev1, hev1, hevf⟩ | ⟨_, hlook'⟩
            · subst hk
              have hu := hb3 k ev0 u hev hne
              have hune : u ≠ u0 := by
                intro huu
                exact hpair (by rw [huu])
              rw [hevf]
              show u ∈ ev0.attendees.filter (fun i => decide (i ≠ u0))
              exact List.mem_filter.mpr ⟨hu, decide_eq_true hune⟩
            · exact hb3 k ev u hlook' hne
  | approve sess id =>
    by_cases hadm : sess.isAdmin = true
    · cases hev : alookup s.events id with
      | none =>
        have hred : step s (Op.approve sess id) = s := by
          simp only [step, handleApproveEvent, hadm, if_true, hev]
        rw [hred]
        exact ⟨hb1, hb2, hb3⟩
      | some ev0 =>
        refine ⟨?_, ?_, ?_⟩
        · intro p hp
          simp only [step, handleApproveEvent, hadm, if_true, hev] at hp ⊢
          rcases mem_aupdate_fst hp with ⟨p0, hp0, hfst⟩
          rw [hfst]
          exact hb1 p0 hp0
        · intro q hq
          simp only [step, handleApproveEvent, hadm, if_true, hev] at hq ⊢
          exact hb2 q hq
        · intro k ev u hlook hne
          simp only [step, handleApproveEvent, hadm, if_true, hev] at hlook hne
          rcases alookup_aupdate_cases hlook with ⟨hk, ev1, hev1, hevf⟩ | ⟨_, hlook'⟩
          · subst hk
            rw [hevf]
            exact hb3 k ev1 u hev1 hne
          · exact hb3 k ev u hlook' hne
    · have hred : step s (Op.approve sess id) = s := by
        simp [step, handleApproveEvent, hadm]
      rw [hred]
      exact ⟨hb1, hb2, hb3⟩
  | reject sess id =>
    by_cases hadm : sess.isAdmin = true
    · cases hev : alookup s.events id with
      | none =>
        have hred : step s (Op.reject sess id) = s := by
          simp only [step, handleRejectEvent, hadm, if_true, hev]
        rw [hred]
        exact ⟨hb1, hb2, hb3⟩
      | some ev0 =>
        refine ⟨?_, ?_, ?_⟩
        · intro p hp
          simp only [step, handleRejectEvent, hadm, if_true, hev] at hp ⊢
          rcases mem_aupdate_fst hp with ⟨p0, hp0, hfst⟩
          rw [hfst]
          exact hb1 p0 hp0
        · intro q hq
          simp only [step, handleRejectEvent, hadm, if_true, hev] at hq ⊢
          exact hb2 q hq
        · intro k ev u hlook hne
          simp only [step, handleRejectEvent, hadm, if_true, hev] at hlook hne
          rcases alookup_aupdate_cases hlook with ⟨hk, ev1, hev1, hevf⟩ | ⟨_, hlook'⟩
          · subst hk
            rw [hevf]
            exact hb3 k ev1 u hev1 hne
          · exact hb3 k ev u hlook' hne
    · have hred : step s (Op.reject sess id) = s := by
        simp [step, handleRejectEvent, hadm]
      rw [hred]
      exact ⟨hb1, hb2, hb3⟩
  | delete id =>
    refine ⟨?_, ?_, ?_⟩
    · intro p hp
      simp only [step, handleDeleteEvent] at hp ⊢
      exact hb1 p (mem_adelete hp)
    · intro q hq
      simp only [step, handleDeleteEvent] at hq ⊢
      exact hb2 q hq
    · intro k ev u hlook hne
      simp only [step, handleDeleteEvent] at hlook hne
      by_cases hk : k = id
      · subst hk
        rw [alookup_adelete_self] at hlook
        cases hlook
      · rw [alookup_adelete_ne _ hk] at hlook
        exact hb3 k ev u hlook hne

theorem regInv_emptyStore : regInv emptyStore := by
  refine ⟨?_, ?_, ?_⟩
  · intro p hp
    simp [emptyStore] at hp
  · intro q hq
    simp [emptyStore] at hq
  · intro k ev u hlook _
    simp [emptyStore, alookup] at hlook

theorem regInv_exec (ops : List Op) : regInv (exec emptyStore ops) := by
  suffices hgen : ∀ (l : List Op) (s : Store), regInv s → regInv (exec s l) from
    hgen ops emptyStore regInv_emptyStore
  intro l
  induction l with
  | nil => intro s hs; exact hs
  | cons op rest ih => intro s hs; exact ih (step s op) (regInv_step op hs)

/-! Claim C7. -/

/-- C7: cancel on an existing event whose attendees do not contain the
caller fails with NotRegistered and performs no mutation: the store is
returned unchanged and no write is issued. -/
theorem c7_cancel_not_registered (s : Store) (u : String) (e : Nat) (ev : Event)
    (hev : alookup s.events e = some ev) (hmem : u ∉ ev.attendees) :
    handleCancelRegistration u e s = (EngineResult.notRegistered, s, []) := by
  have hlen : (ev.attendees.filter (fun i => decide (i ≠ u))).length = ev.attendees.length :=
    filter_ne_length_eq_iff.mpr hmem
  rw [handleCancelRegistration]
  rw [hev]
  simp only [if_pos hlen]

/-- C7 witness: cancelling on the approved empty event without a prior
registration fails with NotRegistered and changes nothing. -/
theorem c7_cancel_not_registered_witness :
    alookup c6Store0.events 0 = some c2ApprovedEvent ∧ ("A" ∉ c2ApprovedEvent.attendees) ∧
      handleCancelRegistration "A" 0 c6Store0 = (EngineResult.notRegistered, c6Store0, []) :=
  ⟨by decide, by decide,
    c7_cancel_not_registered c6Store0 "A" 0 c2ApprovedEvent (by decide) (by decide)⟩

/-! Claim C8. -/

/-- C8: starting from any committed state reachable by sequential engine
operations, a successful register followed by cancel for the same event
and identity succeeds, restores the event's attendee list to its
pre-register value, and restores the existence of the registration record
for that pair to its pre-register value (with all writes succeeding). -/
theorem c8_register_cancel_roundtrip (ops : List Op) (u : String) (e : Nat) (now : String)
    (s1 : Store) (w : List Write)
    (h : handleRegister u e now (exec emptyStore ops) = (EngineResult.ok, s1, w)) :
    (handleCancelRegistration u e s1).1 = EngineResult.ok ∧
      attendeesOf (handleCancelRegistration u e s1).2.1 e
        = attendeesOf (exec emptyStore ops) e ∧
      regRecordExists (handleCancelRegistration u e s1).2.1 u e
        = regRecordExists (exec emptyStore ops) u e := by
  obtain ⟨ev, hev, hmem, hcap, hs1, hw⟩ := register_ok_inv h
  have hpre : alookup (exec emptyStore ops).registrations (u, e) = none := by
    by_contra hne
    exact hmem ((regInv_exec ops).2.2 e ev u hev hne)
  have hlook1 := register_ok_lookup hev hs1
  have hfilter : (ev.attendees ++ [u]).filter (fun i => decide (i ≠ u)) = ev.attendees := by
    rw [List.filter_append, filter_ne_of_not_mem hmem]
    simp
  have hlenne : ¬ (((ev.attendees ++ [u]).filter (fun i => decide (i ≠ u))).length
      = (ev.attendees ++ [u]).length) := by
    rw [hfilter]
    simp
  have hregs1 : s1.registrations = aset (exec emptyStore ops).registrations (u, e) now := by
    rw [hs1]
  rw [handleCancelRegistration]
  rw [hlook1]
  simp only [if_neg hlenne]
  refine ⟨by trivial, ?_, ?_⟩
  · simp only [attendeesOf, alookup_aupdate_self, hlook1, Option.map_some', hev, hfilter]
  · simp only [regRecordExists, alookup_adelete_self, hpre]

/-- C8 witness: from the concrete create-and-approve state, A registers
and then cancels; the final attendee list and registration-record
existence match the pre-register state. -/
theorem c8_register_cancel_roundtrip_witness :
    handleRegister "A" 0 "t1" (exec emptyStore c8Ops)
        = (EngineResult.ok, c6Store1, c8Writes) ∧
      ((handleCancelRegistration "A" 0 c6Store1).1 = EngineResult.ok ∧
        attendeesOf (handleCancelRegistration "A" 0 c6Store1).2.1 0
          = attendeesOf (exec emptyStore c8Ops) 0 ∧
        regRecordExists (handleCancelRegistration "A" 0 c6Store1).2.1 "A" 0
          = regRecordExists (exec emptyStore c8Ops) "A" 0) :=
  ⟨by decide, c8_register_cancel_roundtrip c8Ops "A" 0 "t1" c6Store1 c8Writes (by decide)⟩

/-! Claim C9. -/

/-- C9: the displayed list equals the tab filter followed by the secondary
filters for every tab, identity and filter setting (the two filter stages
commute, so the composition is conjunctive); with no secondary filters the
all tab shows exactly the approved events; and the admin-pending tab is
empty for a non-admin viewer regardless of the events passed in. -/
theorem c9_view_projector :
    (∀ (tab : Tab) (userId : String) (isAdm : Bool) (fd fl : String) (events : List Event),
        displayedEvents tab userId isAdm fd fl events
          = filteredEventsOf fd fl (events.filter (tabPred tab userId isAdm))) ∧
      (∀ (userId : String) (isAdm : Bool) (events : List Event),
        displayedEvents Tab.all userId isAdm "" "" events
          = events.filter (fun ev => decide (ev.status = Status.approved))) ∧
      (∀ (userId : String) (fd fl : String) (events : List Event),
        displayedEvents Tab.adminPending userId false fd fl events = []) ∧
      (∀ (userId : String) (fd fl : String) (events : List Event),
        displayedEvents Tab.adminPending userId true fd fl events
          = filteredEventsOf fd fl
              (events.filter (fun ev => decide (ev.status = Status.pending)))) := by
  have hcomm : ∀ (tab : Tab) (userId : String) (isAdm : Bool) (fd fl : String)
      (events : List Event),
      displayedEvents tab userId isAdm fd fl events
        = filteredEventsOf fd fl (events.filter (tabPred tab userId isAdm)) := by
    intro tab userId isAdm fd fl events
    simp only [displayedEvents, filteredEventsOf, List.filter_filter]
    exact List.filter_congr (fun a _ => Bool.and_comm _ _)
  refine ⟨hcomm, ?_, ?_, ?_⟩
  · intro userId isAdm events
    rw [hcomm]
    simp [filteredEventsOf, secondaryPred, tabPred]
  · intro userId fd fl events
    simp [displayedEvents, filteredEventsOf, tabPred]
  · intro userId fd fl events
    rw [hcomm]
    congr 1

/-! Claim C10. -/

/-- C10: editing an existing event merges exactly the six form fields
(title, description, date, time, location, capacity) into the stored
document; its status, attendees, creatorId and creatorEmail are unchanged,
every other event document is untouched, and the registration and profile
collections and the key counter are untouched. -/
theorem c10_edit_frame (sess : Session) (id : Nat) (d : EventData) (s : Store) (ev : Event)
    (hev : alookup s.events id = some ev) :
    (handleSaveEvent sess (some id) d s).1 = EngineResult.ok ∧
      alookup ((handleSaveEvent sess (some id) d s).2).events id = some (applyEdit d ev) ∧
      (applyEdit d ev).status = ev.status ∧
      (applyEdit d ev).attendees = ev.attendees ∧
      (applyEdit d ev).creatorId = ev.creatorId ∧
      (applyEdit d ev).creatorEmail = ev.creatorEmail ∧
      (applyEdit d ev).title = d.title ∧
      (applyEdit d ev).description = d.description ∧
      (applyEdit d ev).date = d.date ∧
      (applyEdit d ev).time = d.time ∧
      (applyEdit d ev).location = d.location ∧
      (applyEdit d ev).capacity = d.capacity ∧
      (∀ k, k ≠ id →
        alookup ((handleSaveEvent sess (some id) d s).2).events k = alookup s.events k) ∧
      ((handleSaveEvent sess (some id) d s).2).registrations = s.registrations ∧
      ((handleSaveEvent sess (some id) d s).2).profiles = s.profiles ∧
      ((handleSaveEvent sess (some id) d s).2).nextId = s.nextId := by
  refine ⟨?_, ?_, rfl, rfl, rfl, rfl, rfl, rfl, rfl, rfl, rfl, rfl, ?_, ?_, ?_, ?_⟩
  · simp only [handleSaveEvent, hev]
  · simp only [handleSaveEvent, hev]
    rw [alookup_aupdate_self, hev]
    rfl
  · intro k hk
    simp only [handleSaveEvent, hev]
    exact alookup_aupdate_ne _ _ hk
  · simp only [handleSaveEvent, hev]
  · simp only [handleSaveEvent, hev]
  · simp only [handleSaveEvent, hev]

/-- C10 witness: editing the approved event with new form data keeps its
status and attendees while overwriting the six form fields. -/
theorem c10_edit_frame_witness :
    alookup c6Store0.events 0 = some c2ApprovedEvent ∧
      alookup ((handleSaveEvent sessCreator (some 0) dataCap2 c6Store0).2).events 0
        = some (applyEdit dataCap2 c2ApprovedEvent) ∧
      (applyEdit dataCap2 c2ApprovedEvent).status = c2ApprovedEvent.status :=
  ⟨by decide,
    (c10_edit_frame sessCreator 0 dataCap2 c6Store0 c2ApprovedEvent (by decide)).2.1,
    (c10_edit_frame sessCreator 0 dataCap2 c6Store0 c2ApprovedEvent (by decide)).2.2.1⟩

end EventHub
